import Mathlib

/-!
Verification of the rssbot core engine (subscription store, update differ,
message splitter, failure handling, ttl derivation) against its
natural-language specification.

The Rust source (`src/data.rs`, `src/messages.rs`, `src/utlis.rs`,
`src/fetcher.rs`, `src/feed.rs`) is shallowly embedded:

* `HashMap` becomes `AList` (iteration order is irrelevant to every claim;
  lookup/insert/erase mirror the map API),
* `HashSet` becomes `Finset` (with `Finset.sort` standing in for the
  unspecified iteration order where the source iterates a set),
* the 64-bit `DefaultHasher` is abstracted to an arbitrary function
  `hash : String → Nat` (the code never relies on any property of the hash
  beyond determinism),
* `&mut self` methods returning `Result` become pure functions returning the
  result together with the successor state (the source mutates in place even
  on some error paths, so the state is threaded explicitly),
* file IO in `save`/`open` is reduced to the serialised payload: `save`
  produces the list of feeds that is written as a JSON array, `open` rebuilds
  the in-memory state from that list.
-/

namespace Rssbot

/-- `feed::Item` (src/feed.rs): one feed entry. -/
structure Item where
  title : Option String
  link : Option String
  id : Option String
deriving DecidableEq, Repr

/-- `feed::Rss` (src/feed.rs): the canonicalised parse result. -/
structure Rss where
  title : String
  link : String
  source : Option String
  ttl : Option Nat
  items : List Item
deriving DecidableEq, Repr

/-- `data::Feed` (src/data.rs): a stored feed record. -/
structure Feed where
  link : String
  title : String
  error_count : Nat
  subscribers : Finset Int
  hash_list : List Nat
deriving DecidableEq

/-- `errors::ErrorKind` restricted to the kinds the store raises. -/
inductive StoreError where
  | AlreadySubscribed
  | NotSubscribed
deriving DecidableEq, Repr

/--
`gen_item_hash` (src/data.rs:239-245): the fingerprint of an item is the hash
of its `id` when present, otherwise the hash of the concatenation of its title
(empty if absent) and its link (empty if absent).
-/
def gen_item_hash (hash : String → Nat) (item : Item) : Nat :=
  match item.id with
  | some id => hash id
  | none =>
      let title := item.title.getD ""
      let link := item.link.getD ""
      hash (title ++ link)

/--
`DatabaseInner` (src/data.rs:38-43): the in-memory store. `feeds` is keyed by
`FeedID = hash(link)`, `subscribers` maps a chat id to the set of feed ids it
subscribes to. The snapshot path is omitted (file IO is not modelled).
-/
structure DatabaseInner where
  feeds : AList (fun _ : Nat => Feed)
  subscribers : AList (fun _ : Int => Finset Nat)
deriving DecidableEq

namespace DatabaseInner

variable (hash : String → Nat)

/-- `DatabaseInner::is_subscribed` (src/data.rs:83-88). -/
def is_subscribed (db : DatabaseInner) (subscriber : Int) (rss_link : String) :
    Bool :=
  match db.subscribers.lookup subscriber with
  | some feeds => decide (hash rss_link ∈ feeds)
  | none => false

/-- `DatabaseInner::inc_error_count` (src/data.rs:64-73): bump the feed's
error counter and return the new value; `0` when the feed is absent. -/
def inc_error_count (db : DatabaseInner) (rss_link : String) :
    Nat × DatabaseInner :=
  let feed_id := hash rss_link
  match db.feeds.lookup feed_id with
  | some feed =>
      let feed := { feed with error_count := feed.error_count + 1 }
      (feed.error_count, { db with feeds := db.feeds.insert feed_id feed })
  | none => (0, db)

/-- `DatabaseInner::reset_error_count` (src/data.rs:75-81). -/
def reset_error_count (db : DatabaseInner) (rss_link : String) :
    DatabaseInner :=
  let feed_id := hash rss_link
  match db.feeds.lookup feed_id with
  | some feed =>
      { db with feeds := db.feeds.insert feed_id { feed with error_count := 0 } }
  | none => db

/--
`DatabaseInner::subscribe` (src/data.rs:90-116). The entry API creates the
subscriber entry on demand; `AlreadySubscribed` is returned when the feed id is
already in the subscriber's set (in which case the map is left unchanged: the
entry necessarily existed before). On success the feed record is created on
first subscription (initial window = fingerprints of the parsed items) and the
subscriber is added to its subscriber set.
-/
def subscribe (db : DatabaseInner) (subscriber : Int) (rss_link : String)
    (rss : Rss) : Except StoreError Unit × DatabaseInner :=
  let feed_id := hash rss_link
  let subscribed_feeds := (db.subscribers.lookup subscriber).getD ∅
  if feed_id ∈ subscribed_feeds then (.error .AlreadySubscribed, db)
  else
    let db' : DatabaseInner :=
      { db with
        subscribers := db.subscribers.insert subscriber
          (insert feed_id subscribed_feeds) }
    let feed := (db'.feeds.lookup feed_id).getD
      { link := rss_link
        title := rss.title
        error_count := 0
        hash_list := rss.items.map (gen_item_hash hash)
        subscribers := ∅ }
    let feed := { feed with subscribers := insert subscriber feed.subscribers }
    (.ok (), { db' with feeds := db'.feeds.insert feed_id feed })

/--
`DatabaseInner::unsubscribe` (src/data.rs:118-152). The subscriber-index side
is mutated first; the later `NotSubscribed` returns (feed missing, or the
subscriber not in the feed's set) leave that first mutation in place, exactly
as the early `return`s in the source do. On success the (post-removal) feed
record is returned; an emptied feed is removed from the store and an emptied
subscriber entry is removed from the index.
-/
def unsubscribe (db : DatabaseInner) (subscriber : Int) (rss_link : String) :
    Except StoreError Feed × DatabaseInner :=
  let feed_id := hash rss_link
  match db.subscribers.lookup subscriber with
  | none => (.error .NotSubscribed, db)
  | some subscribed_feeds =>
      if feed_id ∈ subscribed_feeds then
        let remaining := subscribed_feeds.erase feed_id
        let db' : DatabaseInner :=
          { db with
            subscribers :=
              if remaining = ∅ then db.subscribers.erase subscriber
              else db.subscribers.insert subscriber remaining }
        match db'.feeds.lookup feed_id with
        | none => (.error .NotSubscribed, db')
        | some feed =>
            if subscriber ∈ feed.subscribers then
              let feed' := { feed with
                subscribers := feed.subscribers.erase subscriber }
              if feed'.subscribers = ∅ then
                (.ok feed', { db' with feeds := db'.feeds.erase feed_id })
              else
                (.ok feed', { db' with feeds := db'.feeds.insert feed_id feed' })
            else (.error .NotSubscribed, db')
      else (.error .NotSubscribed, db)

/-- One step of the loop body of `DatabaseInner::update_subscriber`
(src/data.rs:166-170): `self.feeds.get_mut(&feed_id).unwrap()` panics when the
feed is missing, modelled by `none`. -/
def migrate_feed (src dst : Int) (feeds : AList (fun _ : Nat => Feed))
    (feed_id : Nat) : Option (AList (fun _ : Nat => Feed)) :=
  match feeds.lookup feed_id with
  | none => none
  | some feed =>
      some (feeds.insert feed_id
        { feed with subscribers := insert dst (feed.subscribers.erase src) })

/--
`DatabaseInner::update_subscriber` (src/data.rs:164-172). The whole feed-id
set of `src` is removed (`unwrap` panics — `none` — when `src` has no entry),
every one of those feeds swaps `src` for `dst` in its subscriber set, and the
set is then inserted for `dst`, overwriting any set `dst` already had. The
source iterates the `HashSet` in unspecified order; the model iterates it in
sorted order (the final state does not depend on the order).
-/
def update_subscriber (db : DatabaseInner) (src dst : Int) :
    Option DatabaseInner :=
  match db.subscribers.lookup src with
  | none => none
  | some feeds =>
      let subs := db.subscribers.erase src
      match (feeds.sort (· ≤ ·)).foldlM (migrate_feed src dst) db.feeds with
      | none => none
      | some feeds' =>
          some { feeds := feeds', subscribers := subs.insert dst feeds }

/--
The item loop of `DatabaseInner::update` (src/data.rs:182-191): walk the
polled items in order; an item whose fingerprint is not in the stored window
is pushed onto `result`, and its fingerprint onto `new_hash_list` (the stored
window is not modified while the loop runs). Returns
`(result, new_hash_list)`.
-/
def diff_items (window : List Nat) : List Item → List Item × List Nat
  | [] => ([], [])
  | item :: rest =>
      let h := gen_item_hash hash item
      let r := diff_items window rest
      if h ∈ window then r
      else (item :: r.1, h :: r.2)

/--
`DatabaseInner::update` (src/data.rs:174-207). Absent feed: return no items
and leave the state alone. Otherwise reset the error counter, diff the items
against the stored window, and — only when at least one new item was found —
replace the window by the new fingerprints followed by the old window
truncated to `max_size - new_hash_list.length` entries, where
`max_size = 2 * items.length`.
-/
def update (db : DatabaseInner) (rss_link : String) (items : List Item) :
    List Item × DatabaseInner :=
  let feed_id := hash rss_link
  match db.feeds.lookup feed_id with
  | none => ([], db)
  | some feed0 =>
      -- `reset_error_count` only zeroes this entry's counter
      let feed := { feed0 with error_count := 0 }
      let db' : DatabaseInner :=
        { db with feeds := db.feeds.insert feed_id feed }
      let r := diff_items hash feed.hash_list items
      if r.1.isEmpty then (r.1, db')
      else
        let max_size := items.length * 2
        let appended := feed.hash_list.take (max_size - r.2.length)
        (r.1,
          { db' with
            feeds := db'.feeds.insert feed_id
              { feed with hash_list := r.2 ++ appended } })

/-- `DatabaseInner::save` (src/data.rs:217-223): the payload written to disk
is the list of feed records (the JSON array), the map keys are dropped. -/
def save (db : DatabaseInner) : List Feed :=
  db.feeds.entries.map fun e => e.2

end DatabaseInner

/-- The inner loop of `Database::open` (src/data.rs:276-281): give every
subscriber listed in `feed` an entry containing `feed_id`. The `HashSet` is
iterated in sorted order (the resulting map does not depend on the order). -/
def open_add_feed_subscribers (feed_id : Nat) (subs : List Int)
    (index : AList (fun _ : Int => Finset Nat)) :
    AList (fun _ : Int => Finset Nat) :=
  subs.foldl
    (fun index subscriber =>
      index.insert subscriber (insert feed_id ((index.lookup subscriber).getD ∅)))
    index

/-- The body of the `for feed in feeds_list` loop of `Database::open`
(src/data.rs:274-283): store the feed under `hash(link)` and give every one
of its subscribers an index entry containing that feed id. -/
def open_rebuild_step (hash : String → Nat) (db : DatabaseInner)
    (feed : Feed) : DatabaseInner :=
  let feed_id := hash feed.link
  { feeds := db.feeds.insert feed_id feed
    subscribers :=
      open_add_feed_subscribers feed_id (feed.subscribers.sort (· ≤ ·))
        db.subscribers }

/--
`Database::open` (src/data.rs:264-295), restricted to the rebuild of the
in-memory state from the deserialised feed list: each feed is stored under
`hash(link)` and the subscriber index is rebuilt by walking each feed's
subscriber set.
-/
def open_rebuild (hash : String → Nat) (feeds_list : List Feed) :
    DatabaseInner :=
  feeds_list.foldl (open_rebuild_step hash) { feeds := ∅, subscribers := ∅ }

/-- The set of ids of the feeds of `l` that list `s` as a subscriber — what
the rebuilt subscriber index accumulates for `s`. -/
def collected_feed_ids (hash : String → Nat) (l : List Feed) (s : Int) :
    Finset Nat :=
  l.foldr
    (fun f acc => if s ∈ f.subscribers then insert (hash f.link) acc else acc)
    ∅

/-- `TELEGRAM_MAX_MSG_LEN` (src/messages.rs:3, src/utlis.rs:7). -/
def TELEGRAM_MAX_MSG_LEN : Nat := 4096

/--
The loop of `format_large_msg` (src/messages.rs:5-21). `done` holds the
finished messages, `cur` is the message currently being extended (`msgs.last`
in the source). When the current message plus the next line would pass
`TELEGRAM_MAX_MSG_LEN` the line starts a fresh message; otherwise a newline
and the line are appended to the current message. Rust's byte length is
modelled by `String.length` (they coincide on ASCII and every claim is
length-generic).
-/
def format_large_msg_go (line_format_fn : α → String) (done : List String)
    (cur : String) : List α → List String
  | [] => done ++ [cur]
  | item :: rest =>
      let line := line_format_fn item
      if cur.length + line.length > TELEGRAM_MAX_MSG_LEN then
        format_large_msg_go line_format_fn (done ++ [cur]) line rest
      else
        format_large_msg_go line_format_fn done ((cur.push '\n') ++ line) rest

/-- `format_large_msg` (src/messages.rs:5-21): start from the head line and
fold the formatted items into messages. -/
def format_large_msg (head : String) (data : List α)
    (line_format_fn : α → String) : List String :=
  format_large_msg_go line_format_fn [] head data

/-- `format_and_split_msgs` (src/utlis.rs:101-116) is textually identical to
`format_large_msg` in src/messages.rs. -/
def format_and_split_msgs (head : String) (data : List α)
    (line_format_fn : α → String) : List String :=
  format_large_msg head data line_format_fn

/-- `FREQUENCY_SECOND` (src/fetcher.rs:17): seconds between poll ticks. -/
def FREQUENCY_SECOND : Nat := 300

/--
The fetch-failure branch of `fetch_feed_updates` (src/fetcher.rs:79-135):
bump the feed's error counter; when the new count passes 1440
(`1440 * 5 minute = 5 days`, per the source comment) reset the counter and
notify every subscriber of the (snapshotted) feed record; otherwise stay
silent. Returns (notified?, notification recipients, successor state).
-/
def fetch_failure_step (hash : String → Nat) (db : DatabaseInner)
    (feed : Feed) : Bool × Finset Int × DatabaseInner :=
  let r := db.inc_error_count hash feed.link
  if r.1 > 1440 then
    (true, feed.subscribers, r.2.reset_error_count hash feed.link)
  else (false, ∅, r.2)

/-- `feed::SyPeriod` (src/feed.rs:320-327). -/
inductive SyPeriod where
  | Hourly
  | Daily
  | Weekly
  | Monthly
  | Yearly
deriving DecidableEq, Repr

/--
The ttl derivation at the end of `Rss::from_xml` (src/feed.rs:242-252): an
explicit parsed `ttl` is kept as is; otherwise, with `freq` the parsed
`sy:updateFrequency` defaulting to 1, the period selected by
`sy:updatePeriod` in minutes is divided by `freq`; no period means no ttl.
-/
def derive_ttl (ttl : Option Nat) (sy_period : Option SyPeriod)
    (sy_freq : Option Nat) : Option Nat :=
  match ttl with
  | some t => some t
  | none =>
      let freq := sy_freq.getD 1
      match sy_period with
      | some .Hourly => some (60 / freq)
      | some .Daily => some ((60 * 24) / freq)
      | some .Weekly => some ((60 * 24 * 7) / freq)
      | some .Monthly => some ((60 * 24 * 30) / freq)
      | some .Yearly => some ((60 * 24 * 365) / freq)
      | none => none

/-- The period table in the words of the specification: 60, 1440, 10080,
43200, or 525600 minutes for hourly, daily, weekly, monthly, yearly. -/
def spec_period_minutes : SyPeriod → Nat
  | .Hourly => 60
  | .Daily => 1440
  | .Weekly => 10080
  | .Monthly => 43200
  | .Yearly => 525600

/-- The ttl rule in the words of the specification: explicit `ttl` wins;
otherwise `ttl = period_minutes / freq` with `freq` defaulting to 1; absent
when neither is given. -/
def spec_derive_ttl (ttl : Option Nat) (sy_period : Option SyPeriod)
    (sy_freq : Option Nat) : Option Nat :=
  match ttl with
  | some t => some t
  | none =>
      sy_period.map fun p => spec_period_minutes p / sy_freq.getD 1

/-! ## Invariants of the store (spec §3) -/

/-- I1: every feed present in the store has a non-empty subscriber set. -/
def FeedsNonempty (db : DatabaseInner) : Prop :=
  ∀ fid f, db.feeds.lookup fid = some f → f.subscribers.Nonempty

/-- I2: the dual index is consistent — a feed id is in a subscriber's set
exactly when that subscriber is in the subscriber set of the feed stored
under that id. -/
def DualIndex (db : DatabaseInner) : Prop :=
  ∀ (s : Int) (fid : Nat),
    (∃ fs, db.subscribers.lookup s = some fs ∧ fid ∈ fs) ↔
    (∃ f, db.feeds.lookup fid = some f ∧ s ∈ f.subscribers)

/-- I5: every feed is stored under the hash of its link. -/
def KeysAreLinkHashes (hash : String → Nat) (db : DatabaseInner) : Prop :=
  ∀ fid f, db.feeds.lookup fid = some f → fid = hash f.link

/-- Every entry of the subscriber index is a non-empty set (maintained by all
store operations; an entry is created only by inserting a feed id into it). -/
def IndexEntriesNonempty (db : DatabaseInner) : Prop :=
  ∀ s fs, db.subscribers.lookup s = some fs → fs ≠ ∅

/-! ## Concrete states and items used by witnesses and counterexamples.
The abstract hash is instantiated with `String.length`, so fingerprints can
be chosen through the length of `id` strings. -/

/-- An item with fingerprint `String.length "x" = 1`. -/
def itemA : Item := { title := some "A", link := none, id := some "x" }

/-- An item with fingerprint `String.length "yy" = 2`. -/
def itemB : Item := { title := some "B", link := none, id := some "yy" }

/-- A feed stored under link "ab" (feed id `String.length "ab" = 2`),
subscribed to by chat 7, with window `w` and error count `e`. -/
def exFeed (w : List Nat) (e : Nat) : Feed :=
  { link := "ab", title := "T", error_count := e, subscribers := {7},
    hash_list := w }

/-- A store holding `exFeed w e` under its link hash, with the matching
subscriber index. -/
def exDb (w : List Nat) (e : Nat) : DatabaseInner :=
  { feeds := (∅ : AList fun _ : Nat => Feed).insert 2 (exFeed w e)
    subscribers := (∅ : AList fun _ : Int => Finset Nat).insert 7 {2} }

/-- Chat-migration example: feed "a" (id 1) subscribed by chat 1. -/
def feedA : Feed :=
  { link := "a", title := "A", error_count := 0, subscribers := {1},
    hash_list := [] }

/-- Chat-migration example: feed "bb" (id 2) subscribed by chat 2. -/
def feedB : Feed :=
  { link := "bb", title := "B", error_count := 0, subscribers := {2},
    hash_list := [] }

/-- A consistent store in which chat 1 subscribes feed "a" and chat 2
subscribes feed "bb". -/
def exDbMig : DatabaseInner :=
  { feeds := ((∅ : AList fun _ : Nat => Feed).insert 1 feedA).insert 2 feedB
    subscribers :=
      ((∅ : AList fun _ : Int => Finset Nat).insert 1 {1}).insert 2 {2} }

/-- The state `update_subscriber(1, 2)` produces from `exDbMig`: chat 2's own
subscription set `{2}` has been overwritten by chat 1's `{1}`, while feed
"bb" still lists chat 2 as a subscriber. -/
def exDbMigAfter : DatabaseInner :=
  { feeds :=
      ((∅ : AList fun _ : Nat => Feed).insert 2 feedB).insert 1
        { feedA with subscribers := {2} }
    subscribers := (∅ : AList fun _ : Int => Finset Nat).insert 2 {1} }

/-- A feed stored under key 0, although its link "ab" hashes (under
`String.length`) to 2 — satisfies I1 and I2 but not I5. -/
def mismatchDb : DatabaseInner :=
  { feeds := (∅ : AList fun _ : Nat => Feed).insert 0 (exFeed [] 0)
    subscribers := (∅ : AList fun _ : Int => Finset Nat).insert 7 {0} }

/-- A 2048-character line of a. -/
def bigA : String := String.mk (List.replicate 2048 'a')

/-- A 2048-character line of b. -/
def bigB : String := String.mk (List.replicate 2048 'b')

/-! ## The differ (claims C1, C3, C5) -/

lemma diff_items_fst (hash : String → Nat) (window : List Nat) :
    ∀ items : List Item,
      (DatabaseInner.diff_items hash window items).1
        = items.filter fun it => decide (gen_item_hash hash it ∉ window)
  | [] => rfl
  | item :: rest => by
      simp only [DatabaseInner.diff_items, List.filter_cons]
      by_cases h : gen_item_hash hash item ∈ window
      · simp [h, diff_items_fst hash window rest]
      · simp [h, diff_items_fst hash window rest]

lemma diff_items_snd (hash : String → Nat) (window : List Nat) :
    ∀ items : List Item,
      (DatabaseInner.diff_items hash window items).2
        = (DatabaseInner.diff_items hash window items).1.map
            (gen_item_hash hash)
  | [] => rfl
  | item :: rest => by
      simp only [DatabaseInner.diff_items]
      by_cases h : gen_item_hash hash item ∈ window
      · simp [h, diff_items_snd hash window rest]
      · simp [h, diff_items_snd hash window rest]

/-- The items returned by `update` are exactly the polled items whose
fingerprint is missing from the stored window, kept in source order. -/
lemma update_fst_eq_filter (hash : String → Nat) (db : DatabaseInner)
    (rss_link : String) (items : List Item) (feed : Feed)
    (hfeed : db.feeds.lookup (hash rss_link) = some feed) :
    (db.update hash rss_link items).1
      = items.filter fun it =>
          decide (gen_item_hash hash it ∉ feed.hash_list) := by
  simp only [DatabaseInner.update, hfeed]
  split <;> simp [diff_items_fst]

/-- C1: for every stored feed and polled item list, `update` returns exactly
the items whose fingerprint is not in the feed's stored hash window at the
time of the call, in source order; the fingerprint is `hash id` when the id
is present and otherwise the hash of title-or-empty concatenated with
link-or-empty (which is what `gen_item_hash` computes). -/
theorem update_returns_exactly_unseen_items (hash : String → Nat)
    (db : DatabaseInner) (rss_link : String) (items : List Item) (feed : Feed)
    (hfeed : db.feeds.lookup (hash rss_link) = some feed) :
    (db.update hash rss_link items).1
      = items.filter fun it =>
          decide (gen_item_hash hash it ∉ feed.hash_list) :=
  update_fst_eq_filter hash db rss_link items feed hfeed

/-- Witness for C1 at a concrete store: the feed stored under
`String.length "ab" = 2` has window `[1]`; polling `[itemA, itemB]`
(fingerprints 1 and 2) returns exactly `[itemB]`. -/
theorem update_returns_exactly_unseen_items_witness :
    (exDb [1] 0).feeds.lookup (String.length "ab") = some (exFeed [1] 0) ∧
    ((exDb [1] 0).update String.length "ab" [itemA, itemB]).1
      = [itemA, itemB].filter fun it =>
          decide (gen_item_hash String.length it ∉ (exFeed [1] 0).hash_list) :=
  ⟨by decide,
    update_returns_exactly_unseen_items String.length (exDb [1] 0) "ab"
      [itemA, itemB] (exFeed [1] 0) (by decide)⟩

/-- C3 as stated is false: when every polled item is already in the window,
`update` returns no items and leaves the window untouched, so a poll that
shrinks can leave the window larger than twice its length. Here the stored
window `[1, 2, 3]` stays at length 3 after polling the single already-seen
`itemA`, and `3 ≤ 2 × 1` fails. -/
theorem update_window_bound_counterexample :
    ((exDb [1, 2, 3] 0).update String.length "ab" [itemA]).2.feeds.lookup 2
      = some (exFeed [1, 2, 3] 0) ∧
    ¬ ((exFeed [1, 2, 3] 0).hash_list.length ≤ 2 * [itemA].length) := by
  decide

/-- C3 (amended): after `update(link, items)` on a stored feed, the window is
bounded by `2 × len(items)` whenever at least one new item was returned;
when no new item was found the state keeps the previous window (only the
error counter is reset). -/
theorem update_window_bounded (hash : String → Nat) (db : DatabaseInner)
    (rss_link : String) (items : List Item) (feed : Feed)
    (hfeed : db.feeds.lookup (hash rss_link) = some feed) :
    ((db.update hash rss_link items).1 ≠ [] →
      ∃ f, (db.update hash rss_link items).2.feeds.lookup (hash rss_link)
          = some f ∧
        f.hash_list.length ≤ 2 * items.length) ∧
    ((db.update hash rss_link items).1 = [] →
      (db.update hash rss_link items).2.feeds.lookup (hash rss_link)
        = some { feed with error_count := 0 }) := by
  have hlen : (DatabaseInner.diff_items hash feed.hash_list items).2.length
      ≤ items.length := by
    rw [diff_items_snd, List.length_map, diff_items_fst]
    exact List.length_filter_le _ _
  simp only [DatabaseInner.update, hfeed]
  split
  · rename_i hemp
    rw [List.isEmpty_iff] at hemp
    constructor
    · intro hne; exact absurd hemp hne
    · intro _; exact AList.lookup_insert _
  · rename_i hemp
    rw [List.isEmpty_iff] at hemp
    constructor
    · intro _
      refine ⟨_, AList.lookup_insert _, ?_⟩
      simp only [List.length_append, List.length_take]
      omega
    · intro heq; exact absurd heq hemp

/-- Witness for C3 (amended) at a concrete store: polling `[itemB]`
(fingerprint 2, new) against window `[1]` returns one item and the new
window respects the bound. -/
theorem update_window_bounded_witness :
    (exDb [1] 0).feeds.lookup (String.length "ab") = some (exFeed [1] 0) ∧
    ((((exDb [1] 0).update String.length "ab" [itemB]).1 ≠ [] →
      ∃ f, ((exDb [1] 0).update String.length "ab" [itemB]).2.feeds.lookup
          (String.length "ab") = some f ∧
        f.hash_list.length ≤ 2 * [itemB].length) ∧
    (((exDb [1] 0).update String.length "ab" [itemB]).1 = [] →
      ((exDb [1] 0).update String.length "ab" [itemB]).2.feeds.lookup
          (String.length "ab")
        = some { exFeed [1] 0 with error_count := 0 })) :=
  ⟨by decide,
    update_window_bounded String.length (exDb [1] 0) "ab" [itemB]
      (exFeed [1] 0) (by decide)⟩

/-- C5 as stated is false: the membership test of the differ runs against the
window as it was at the start of the call, so an item repeated inside one
poll is returned once per occurrence. After poll₁ = `[itemA]` (already
known), poll₂ = `[itemB, itemB]` returns two items while poll₂ contributes
only one distinct new fingerprint. -/
theorem no_duplicate_delivery_counterexample :
    ((((exDb [1] 0).update String.length "ab" [itemA]).2).update String.length
        "ab" [itemB, itemB]).1.length = 2 ∧
    ((([itemB, itemB].map (gen_item_hash String.length)).dedup).filter
        fun h => decide (h ∉ [itemA].map (gen_item_hash String.length))).length
      = 1 ∧
    ¬ ((2 : Nat) ≤ 1) := by
  decide

/-- C5 (amended): provided every fingerprint of poll₁ is present in the
window stored after the first `update` (true in particular whenever the
window before poll₁ had at most `len(poll₁)` entries), the second `update`
never returns an item whose fingerprint occurs in poll₁ — no item of two
consecutive polls is delivered twice — and it returns at most as many items
as poll₂ has occurrences of fingerprints that poll₁ lacks (occurrences, not
distinct fingerprints: a fresh item repeated inside poll₂ is returned once
per occurrence). -/
theorem no_duplicate_delivery_across_polls (hash : String → Nat)
    (db : DatabaseInner) (rss_link : String) (poll1 poll2 : List Item)
    (f1 : Feed)
    (h1 : ((db.update hash rss_link poll1).2).feeds.lookup (hash rss_link)
      = some f1)
    (hcov : ∀ it ∈ poll1, gen_item_hash hash it ∈ f1.hash_list) :
    (∀ it ∈ (((db.update hash rss_link poll1).2).update hash rss_link
        poll2).1,
      gen_item_hash hash it ∉ poll1.map (gen_item_hash hash)) ∧
    (((db.update hash rss_link poll1).2).update hash rss_link poll2).1.length
      ≤ (poll2.filter fun it =>
          decide (gen_item_hash hash it ∉ poll1.map (gen_item_hash hash))).length
    := by
  have h2 := update_fst_eq_filter hash ((db.update hash rss_link poll1).2)
    rss_link poll2 f1 h1
  have himp : ∀ a : Item, gen_item_hash hash a ∉ f1.hash_list →
      gen_item_hash hash a ∉ poll1.map (gen_item_hash hash) := by
    intro a hwin hmem
    obtain ⟨it', hit', heq⟩ := List.mem_map.mp hmem
    exact hwin (heq ▸ hcov it' hit')
  constructor
  · intro it hit
    rw [h2] at hit
    exact himp it (by simpa using List.of_mem_filter hit)
  · rw [h2]
    refine List.Sublist.length_le (List.monotone_filter_right _ ?_)
    intro a ha
    simp only [decide_eq_true_eq] at ha ⊢
    exact himp a ha

/-! ## The subscription store (claims C4, C10) -/

/--
Characterisation of `unsubscribe` on a store whose dual index is consistent:
either the subscriber is not subscribed to the link, the call reports
`NotSubscribed` and the state is untouched; or it is, the post-removal feed
record is returned, and both sides of the dual index drop the entry (erasing
the feed/subscriber entirely when its set would become empty).
-/
lemma unsubscribe_spec (hash : String → Nat) (db : DatabaseInner) (s : Int)
    (rss_link : String) (hI2 : DualIndex db) :
    (db.is_subscribed hash s rss_link = false ∧
      (db.unsubscribe hash s rss_link).1 = .error .NotSubscribed ∧
      (db.unsubscribe hash s rss_link).2 = db) ∨
    (∃ fs f, db.subscribers.lookup s = some fs ∧ hash rss_link ∈ fs ∧
      db.feeds.lookup (hash rss_link) = some f ∧ s ∈ f.subscribers ∧
      db.is_subscribed hash s rss_link = true ∧
      (db.unsubscribe hash s rss_link).1
        = .ok { f with subscribers := f.subscribers.erase s } ∧
      (db.unsubscribe hash s rss_link).2 =
        { feeds :=
            if f.subscribers.erase s = ∅ then db.feeds.erase (hash rss_link)
            else db.feeds.insert (hash rss_link)
              { f with subscribers := f.subscribers.erase s }
          subscribers :=
            if fs.erase (hash rss_link) = ∅ then db.subscribers.erase s
            else db.subscribers.insert s (fs.erase (hash rss_link)) }) := by
  cases hsub : db.subscribers.lookup s with
  | none =>
      left
      refine ⟨?_, ?_, ?_⟩ <;>
        simp [DatabaseInner.is_subscribed, DatabaseInner.unsubscribe, hsub]
  | some fs =>
      by_cases hmem : hash rss_link ∈ fs
      · right
        obtain ⟨f, hf, hsf⟩ := (hI2 s (hash rss_link)).mp ⟨fs, hsub, hmem⟩
        refine ⟨fs, f, rfl, hmem, hf, hsf, ?_, ?_, ?_⟩
        · simp [DatabaseInner.is_subscribed, hsub, hmem]
        · simp only [DatabaseInner.unsubscribe, hsub, hf, if_pos hmem,
            if_pos hsf]
          split <;> simp
        · simp only [DatabaseInner.unsubscribe, hsub, hf, if_pos hmem,
            if_pos hsf]
          split <;> split <;> simp_all
      · left
        refine ⟨?_, ?_, ?_⟩ <;>
          simp [DatabaseInner.is_subscribed, DatabaseInner.unsubscribe, hsub,
            hmem]

/-- `subscribe` keeps I1: any feed it stores has the fresh subscriber in its
set. -/
lemma subscribe_preserves_feeds_nonempty (hash : String → Nat)
    (db : DatabaseInner) (s : Int) (rss_link : String) (rss : Rss)
    (hI1 : FeedsNonempty db) :
    FeedsNonempty (db.subscribe hash s rss_link rss).2 := by
  by_cases hmem : hash rss_link ∈ (db.subscribers.lookup s).getD ∅
  · simpa [DatabaseInner.subscribe, hmem] using hI1
  · intro fid f hf
    simp only [DatabaseInner.subscribe, if_neg hmem] at hf
    by_cases heq : fid = hash rss_link
    · subst heq
      rw [AList.lookup_insert] at hf
      cases hf
      exact Finset.insert_nonempty _ _
    · rw [AList.lookup_insert_ne heq] at hf
      exact hI1 fid f hf

/-- `unsubscribe` keeps I1 (given the dual index): a feed left in the store
after removal still has a non-empty subscriber set. -/
lemma unsubscribe_preserves_feeds_nonempty (hash : String → Nat)
    (db : DatabaseInner) (s : Int) (rss_link : String)
    (hI1 : FeedsNonempty db) (hI2 : DualIndex db) :
    FeedsNonempty (db.unsubscribe hash s rss_link).2 := by
  rcases unsubscribe_spec hash db s rss_link hI2 with
    ⟨-, -, hstate⟩ | ⟨fs, f, -, -, -, -, -, -, hstate⟩
  · rw [hstate]; exact hI1
  · rw [hstate]
    intro fid g hg
    simp only at hg
    split at hg
    · by_cases heq : fid = hash rss_link
      · subst heq; rw [AList.lookup_erase] at hg; cases hg
      · rw [AList.lookup_erase_ne heq] at hg
        exact hI1 fid g hg
    · rename_i hne
      by_cases heq : fid = hash rss_link
      · subst heq
        rw [AList.lookup_insert] at hg
        cases hg
        exact Finset.nonempty_iff_ne_empty.mpr hne
      · rw [AList.lookup_insert_ne heq] at hg
        exact hI1 fid g hg

/-- A store with a single feed under key `k` whose only subscriber is `s0`
satisfies I1. -/
lemma single_store_feeds_nonempty (k : Nat) (s0 : Int) (f : Feed)
    (hf : f.subscribers = {s0}) :
    FeedsNonempty
      { feeds := (∅ : AList fun _ : Nat => Feed).insert k f
        subscribers := (∅ : AList fun _ : Int => Finset Nat).insert s0 {k} } := by
  intro fid g hg
  by_cases hk : fid = k
  · subst hk
    rw [AList.lookup_insert] at hg
    cases hg
    rw [hf]
    exact Finset.singleton_nonempty _
  · rw [AList.lookup_insert_ne hk, AList.lookup_empty] at hg
    cases hg

/-- A store with a single feed under key `k` whose only subscriber is `s0`
satisfies I2. -/
lemma single_store_dual_index (k : Nat) (s0 : Int) (f : Feed)
    (hf : f.subscribers = {s0}) :
    DualIndex
      { feeds := (∅ : AList fun _ : Nat => Feed).insert k f
        subscribers := (∅ : AList fun _ : Int => Finset Nat).insert s0 {k} } := by
  intro s fid
  constructor
  · rintro ⟨fs, hfs, hmem⟩
    by_cases hs : s = s0
    · subst hs
      rw [AList.lookup_insert] at hfs
      cases hfs
      rw [Finset.mem_singleton] at hmem
      subst hmem
      exact ⟨f, AList.lookup_insert _,
        by rw [hf]; exact Finset.mem_singleton_self _⟩
    · rw [AList.lookup_insert_ne hs, AList.lookup_empty] at hfs
      cases hfs
  · rintro ⟨g, hg, hsg⟩
    by_cases hk : fid = k
    · subst hk
      rw [AList.lookup_insert] at hg
      cases hg
      rw [hf, Finset.mem_singleton] at hsg
      subst hsg
      refine ⟨{fid}, AList.lookup_insert _, Finset.mem_singleton_self _⟩
    · rw [AList.lookup_insert_ne hk, AList.lookup_empty] at hg
      cases hg

/-- `exDb` satisfies I1. -/
lemma exDb_feeds_nonempty (w : List Nat) (e : Nat) :
    FeedsNonempty (exDb w e) :=
  single_store_feeds_nonempty 2 7 (exFeed w e) rfl

/-- `exDb` satisfies I2. -/
lemma exDb_dual_index (w : List Nat) (e : Nat) : DualIndex (exDb w e) :=
  single_store_dual_index 2 7 (exFeed w e) rfl

/-- `mismatchDb` satisfies I1. -/
lemma mismatchDb_feeds_nonempty : FeedsNonempty mismatchDb :=
  single_store_feeds_nonempty 0 7 (exFeed [] 0) rfl

/-- `mismatchDb` satisfies I2. -/
lemma mismatchDb_dual_index : DualIndex mismatchDb :=
  single_store_dual_index 0 7 (exFeed [] 0) rfl

/-- C4: on a store satisfying I1 and I2, `unsubscribe(s, link)` succeeds with
the feed record exactly when s was subscribed to link; on success the feed is
gone from the store exactly when the returned (post-removal) record has no
subscribers left, and s's index entry is gone exactly when the removed feed
was its last subscription; and both `subscribe` and `unsubscribe` preserve
I1, so a feed exists in the store only with a non-empty subscriber set. -/
theorem unsubscribe_contract (hash : String → Nat) (db : DatabaseInner)
    (s : Int) (rss_link : String) (rss : Rss)
    (hI1 : FeedsNonempty db) (hI2 : DualIndex db) :
    ((∃ f, (db.unsubscribe hash s rss_link).1 = .ok f) ↔
      db.is_subscribed hash s rss_link = true) ∧
    (∀ f, (db.unsubscribe hash s rss_link).1 = .ok f →
      (((db.unsubscribe hash s rss_link).2.feeds.lookup (hash rss_link) = none
          ↔ f.subscribers = ∅) ∧
       (∀ fs, db.subscribers.lookup s = some fs →
        ((db.unsubscribe hash s rss_link).2.subscribers.lookup s = none
          ↔ fs.erase (hash rss_link) = ∅)))) ∧
    FeedsNonempty (db.unsubscribe hash s rss_link).2 ∧
    FeedsNonempty (db.subscribe hash s rss_link rss).2 := by
  refine ⟨?_, ?_,
    unsubscribe_preserves_feeds_nonempty hash db s rss_link hI1 hI2,
    subscribe_preserves_feeds_nonempty hash db s rss_link rss hI1⟩
  · rcases unsubscribe_spec hash db s rss_link hI2 with
      ⟨hns, herr, -⟩ | ⟨fs, f, -, -, -, -, hiss, hok, -⟩
    · rw [herr, hns]
      simp
    · rw [hok, hiss]
      exact ⟨fun _ => rfl, fun _ => ⟨_, rfl⟩⟩
  · rcases unsubscribe_spec hash db s rss_link hI2 with
      ⟨-, herr, -⟩ | ⟨fs, f, hsub, hmem, -, -, -, hok, hstate⟩
    · intro f hf
      rw [herr] at hf
      cases hf
    · intro g hg
      rw [hok] at hg
      cases hg
      rw [hstate]
      refine ⟨?_, ?_⟩
      · simp only
        by_cases hemp : f.subscribers.erase s = ∅
        · rw [if_pos hemp, AList.lookup_erase]
          simpa using hemp
        · rw [if_neg hemp, AList.lookup_insert]
          simpa using hemp
      · intro fs' hfs'
        rw [hsub] at hfs'
        cases hfs'
        simp only
        by_cases hemp : fs.erase (hash rss_link) = ∅
        · rw [if_pos hemp, AList.lookup_erase]
          simpa using hemp
        · rw [if_neg hemp, AList.lookup_insert]
          simpa using hemp

/-- Witness for C4 at a concrete store (chat 7 subscribed to feed "ab"
only): I1 and I2 hold, and the whole contract is obtained from
`unsubscribe_contract`. -/
theorem unsubscribe_contract_witness :
    FeedsNonempty (exDb [1] 0) ∧ DualIndex (exDb [1] 0) ∧
    (((∃ f, ((exDb [1] 0).unsubscribe String.length 7 "ab").1 = .ok f) ↔
      (exDb [1] 0).is_subscribed String.length 7 "ab" = true) ∧
    (∀ f, ((exDb [1] 0).unsubscribe String.length 7 "ab").1 = .ok f →
      ((((exDb [1] 0).unsubscribe String.length 7 "ab").2.feeds.lookup
          (String.length "ab") = none ↔ f.subscribers = ∅) ∧
       (∀ fs, (exDb [1] 0).subscribers.lookup 7 = some fs →
        (((exDb [1] 0).unsubscribe String.length 7 "ab").2.subscribers.lookup 7
          = none ↔ fs.erase (String.length "ab") = ∅)))) ∧
    FeedsNonempty ((exDb [1] 0).unsubscribe String.length 7 "ab").2 ∧
    FeedsNonempty
      ((exDb [1] 0).subscribe String.length 7 "ab"
        { title := "T", link := "", source := none, ttl := none,
          items := [] }).2) :=
  ⟨exDb_feeds_nonempty [1] 0, exDb_dual_index [1] 0,
    unsubscribe_contract String.length (exDb [1] 0) 7 "ab"
      { title := "T", link := "", source := none, ttl := none, items := [] }
      (exDb_feeds_nonempty [1] 0) (exDb_dual_index [1] 0)⟩

/-- C10: on a store with a consistent dual index, `unsubscribe` reports
`NotSubscribed` exactly when the subscriber is not subscribed to the link,
and in that case the state — feeds map and subscriber index — is returned
unchanged: a failing unsubscribe never performs a partial removal. -/
theorem unsubscribe_error_leaves_state (hash : String → Nat)
    (db : DatabaseInner) (s : Int) (rss_link : String) (hI2 : DualIndex db) :
    (((db.unsubscribe hash s rss_link).1 = .error .NotSubscribed) ↔
      ¬ db.is_subscribed hash s rss_link = true) ∧
    (¬ db.is_subscribed hash s rss_link = true →
      (db.unsubscribe hash s rss_link).2 = db) := by
  rcases unsubscribe_spec hash db s rss_link hI2 with
    ⟨hns, herr, hstate⟩ | ⟨fs, f, -, -, -, -, hiss, hok, -⟩
  · rw [herr, hns, hstate]
    simp
  · rw [hok, hiss]
    simp

/-- Witness for C10 at a concrete store: chat 9 is not subscribed, the call
fails with `NotSubscribed` and the state is untouched. -/
theorem unsubscribe_error_leaves_state_witness :
    DualIndex (exDb [1] 0) ∧
    ((((exDb [1] 0).unsubscribe String.length 9 "ab").1
        = .error .NotSubscribed) ↔
      ¬ (exDb [1] 0).is_subscribed String.length 9 "ab" = true) ∧
    (¬ (exDb [1] 0).is_subscribed String.length 9 "ab" = true →
      ((exDb [1] 0).unsubscribe String.length 9 "ab").2 = exDb [1] 0) :=
  ⟨exDb_dual_index [1] 0,
    unsubscribe_error_leaves_state String.length (exDb [1] 0) 9 "ab"
      (exDb_dual_index [1] 0)⟩

/-! ## ttl derivation (claim C9) -/

/-- C9: the parser's ttl computation agrees with the specification's rule —
explicit integer `ttl` wins and the syndication values are ignored; without
it, `ttl = period_minutes / freq` with period 60 / 1440 / 10080 / 43200 /
525600 minutes for hourly / daily / weekly / monthly / yearly and `freq`
defaulting to 1; with neither, ttl is absent. The hypothesis excludes a
parsed `sy:updateFrequency` of 0, where the Rust `u32` division panics while
the `Nat` model yields 0. -/
theorem derive_ttl_matches_spec (ttl : Option Nat)
    (sy_period : Option SyPeriod) (sy_freq : Option Nat)
    (hfreq : sy_freq ≠ some 0) :
    derive_ttl ttl sy_period sy_freq = spec_derive_ttl ttl sy_period sy_freq := by
  cases ttl with
  | some t => rfl
  | none =>
      cases sy_period with
      | none => rfl
      | some p => cases p <;> rfl

/-- Witness for C9: `sy:updatePeriod = hourly`, `sy:updateFrequency = 6`, no
explicit ttl — both sides give 10 minutes (the repository's own `ttl_sy`
test case). -/
theorem derive_ttl_matches_spec_witness :
    (some 6 : Option Nat) ≠ some 0 ∧
    derive_ttl none (some .Hourly) (some 6)
      = spec_derive_ttl none (some .Hourly) (some 6) ∧
    derive_ttl none (some .Hourly) (some 6) = some 10 :=
  ⟨by decide, derive_ttl_matches_spec none (some .Hourly) (some 6) (by decide),
    by decide⟩

/-! ## Failure accounting (claim C8) -/

/-- C8 as stated is false: with 1440 prior consecutive failures the elapsed
time since the first failure is 1440 × 300 s = 5 × 24 × 3600 s exactly — it
does not *exceed* the five-day threshold — yet the failure branch already
notifies. -/
theorem failure_notification_counterexample :
    (fetch_failure_step String.length (exDb [] 1440) (exFeed [] 1440)).1
      = true ∧
    ¬ (1440 * FREQUENCY_SECOND > 5 * 24 * 3600) := by
  decide

/-- C8 (amended): for a feed stored with `e` prior consecutive failures
(ticks are `FREQUENCY_SECOND = 300` seconds apart, so the elapsed time since
the first failure is `e * FREQUENCY_SECOND`), the failure branch notifies
the snapshotted feed's subscribers exactly when that elapsed time has
*reached* 5 × 24 × 3600 seconds (equivalently: the incremented count exceeds
1440); when it notifies the failure clock is reset to 0, and otherwise it
stays silent (no recipients) and the stored count becomes `e + 1` for the
next tick. -/
theorem failure_notification_threshold (hash : String → Nat)
    (db : DatabaseInner) (feed sf : Feed) (e : Nat)
    (hsf : db.feeds.lookup (hash feed.link) = some sf)
    (he : sf.error_count = e) :
    ((fetch_failure_step hash db feed).1 = true ↔
      e * FREQUENCY_SECOND ≥ 5 * 24 * 3600) ∧
    ((fetch_failure_step hash db feed).2.1
      = if (fetch_failure_step hash db feed).1 = true then feed.subscribers
        else ∅) ∧
    ((fetch_failure_step hash db feed).1 = true →
      ∃ g, (fetch_failure_step hash db feed).2.2.feeds.lookup (hash feed.link)
          = some g ∧ g.error_count = 0) ∧
    ((fetch_failure_step hash db feed).1 = false →
      ∃ g, (fetch_failure_step hash db feed).2.2.feeds.lookup (hash feed.link)
          = some g ∧ g.error_count = e + 1) := by
  subst he
  simp only [fetch_failure_step, DatabaseInner.inc_error_count, hsf]
  by_cases hgt : sf.error_count + 1 > 1440
  · rw [if_pos hgt]
    refine ⟨?_, by simp, ?_, ?_⟩
    · simp only [FREQUENCY_SECOND, true_iff]
      omega
    · intro _
      simp only [DatabaseInner.reset_error_count, AList.lookup_insert]
      exact ⟨_, rfl, rfl⟩
    · intro h
      cases h
  · rw [if_neg hgt]
    refine ⟨?_, by simp, ?_, ?_⟩
    · simp only [FREQUENCY_SECOND]
      exact iff_of_false (by simp) (by omega)
    · intro h
      cases h
    · intro _
      exact ⟨_, AList.lookup_insert _, rfl⟩

/-- Witness for C8 (amended) at the concrete boundary: 1440 prior failures,
elapsed exactly five days, notification fires with the feed's subscribers as
recipients and the clock resets. -/
theorem failure_notification_threshold_witness :
    (exDb [] 1440).feeds.lookup (String.length "ab") = some (exFeed [] 1440) ∧
    (exFeed [] 1440).error_count = 1440 ∧
    (((fetch_failure_step String.length (exDb [] 1440) (exFeed [] 1440)).1
        = true ↔
      1440 * FREQUENCY_SECOND ≥ 5 * 24 * 3600) ∧
    ((fetch_failure_step String.length (exDb [] 1440) (exFeed [] 1440)).2.1
      = if (fetch_failure_step String.length (exDb [] 1440)
            (exFeed [] 1440)).1 = true then (exFeed [] 1440).subscribers
        else ∅) ∧
    ((fetch_failure_step String.length (exDb [] 1440) (exFeed [] 1440)).1
        = true →
      ∃ g, (fetch_failure_step String.length (exDb [] 1440)
            (exFeed [] 1440)).2.2.feeds.lookup (String.length "ab")
          = some g ∧ g.error_count = 0) ∧
    ((fetch_failure_step String.length (exDb [] 1440) (exFeed [] 1440)).1
        = false →
      ∃ g, (fetch_failure_step String.length (exDb [] 1440)
            (exFeed [] 1440)).2.2.feeds.lookup (String.length "ab")
          = some g ∧ g.error_count = 1440 + 1)) :=
  ⟨by decide, by decide,
    failure_notification_threshold String.length (exDb [] 1440)
      (exFeed [] 1440) (exFeed [] 1440) 1440 (by decide) rfl⟩

/-! ## The large-message splitter (claim C6) -/

/-- Invariant of the splitter loop: when every already-finished message and
the current message are within `TELEGRAM_MAX_MSG_LEN + 1` and every
remaining line is within `TELEGRAM_MAX_MSG_LEN`, every produced message is
within `TELEGRAM_MAX_MSG_LEN + 1`. -/
lemma format_large_msg_go_bound (f : α → String) :
    ∀ (data : List α) (done : List String) (cur : String),
      (∀ m ∈ done, m.length ≤ TELEGRAM_MAX_MSG_LEN + 1) →
      cur.length ≤ TELEGRAM_MAX_MSG_LEN + 1 →
      (∀ t ∈ data, (f t).length ≤ TELEGRAM_MAX_MSG_LEN) →
      ∀ m ∈ format_large_msg_go f done cur data,
        m.length ≤ TELEGRAM_MAX_MSG_LEN + 1
  | [], done, cur => by
      intro hdone hcur _ m hm
      simp only [format_large_msg_go] at hm
      rcases List.mem_append.mp hm with h | h
      · exact hdone m h
      · rw [List.mem_singleton] at h
        subst h
        exact hcur
  | t :: rest, done, cur => by
      intro hdone hcur hdata m hm
      simp only [format_large_msg_go] at hm
      by_cases hc : cur.length + (f t).length > TELEGRAM_MAX_MSG_LEN
      · rw [if_pos hc] at hm
        refine format_large_msg_go_bound f rest (done ++ [cur]) (f t) ?_ ?_ ?_
          m hm
        · intro m' hm'
          rcases List.mem_append.mp hm' with h | h
          · exact hdone m' h
          · rw [List.mem_singleton] at h
            subst h
            exact hcur
        · exact le_trans (hdata t (List.mem_cons_self t rest)) (Nat.le_succ _)
        · intro t' ht'
          exact hdata t' (List.mem_cons_of_mem t ht')
      · rw [if_neg hc] at hm
        refine format_large_msg_go_bound f rest done ((cur.push '\n') ++ f t)
          hdone ?_ ?_ m hm
        · rw [String.length_append, String.length_push]
          omega
        · intro t' ht'
          exact hdata t' (List.mem_cons_of_mem t ht')

/-- A single line that passes the overflow test is merged into the head with
a joining newline. -/
lemma format_large_msg_single_merge (head line : String) (f : α → String)
    (t : α) (hf : f t = line)
    (h : ¬ (head.length + line.length > TELEGRAM_MAX_MSG_LEN)) :
    format_large_msg head [t] f = [(head.push '\n') ++ line] := by
  simp only [format_large_msg, format_large_msg_go, hf]
  rw [if_neg h]
  simp only [format_large_msg_go, List.nil_append]

/-- C6 as stated is false: the overflow test does not count the joining
newline, so a 2048-character head plus a 2048-character line (total exactly
4096) are merged into one 4097-character message. -/
theorem splitter_cap_counterexample :
    format_large_msg bigA [()] (fun _ => bigB) = [(bigA.push '\n') ++ bigB] ∧
    ((bigA.push '\n') ++ bigB).length = 4097 ∧
    ¬ (((bigA.push '\n') ++ bigB).length ≤ TELEGRAM_MAX_MSG_LEN) := by
  have hA : bigA.length = 2048 := by
    show (String.mk (List.replicate 2048 'a')).length = 2048
    rw [String.length_mk, List.length_replicate]
  have hB : bigB.length = 2048 := by
    show (String.mk (List.replicate 2048 'b')).length = 2048
    rw [String.length_mk, List.length_replicate]
  refine ⟨?_, ?_, ?_⟩
  · exact format_large_msg_single_merge bigA bigB _ () rfl
      (by rw [hA, hB]; decide)
  · rw [String.length_append, String.length_push, hA, hB]
  · rw [String.length_append, String.length_push, hA, hB]
    decide

/-- C6 (amended): when the head and every formatted line are within the
4096 cap, every message the splitter produces has length at most 4097 —
one over the cap, because the joining newline is not counted by the
overflow test; the 4096 bound itself fails (see the counterexample). This
covers `format_large_msg` and the identical `format_and_split_msgs`. -/
theorem splitter_cap (head : String) (data : List α) (f : α → String)
    (hhead : head.length ≤ TELEGRAM_MAX_MSG_LEN)
    (hlines : ∀ t ∈ data, (f t).length ≤ TELEGRAM_MAX_MSG_LEN) :
    (∀ m ∈ format_large_msg head data f,
      m.length ≤ TELEGRAM_MAX_MSG_LEN + 1) ∧
    (∀ m ∈ format_and_split_msgs head data f,
      m.length ≤ TELEGRAM_MAX_MSG_LEN + 1) := by
  have h := format_large_msg_go_bound f data [] head (by simp)
    (le_trans hhead (Nat.le_succ _)) hlines
  exact ⟨h, h⟩

/-- Witness for C6 (amended) on a small input. -/
theorem splitter_cap_witness :
    ("h".length ≤ TELEGRAM_MAX_MSG_LEN) ∧
    (∀ t ∈ [()], ((fun _ => "x") t).length ≤ TELEGRAM_MAX_MSG_LEN) ∧
    ((∀ m ∈ format_large_msg "h" [()] (fun _ => "x"),
      m.length ≤ TELEGRAM_MAX_MSG_LEN + 1) ∧
    (∀ m ∈ format_and_split_msgs "h" [()] (fun _ => "x"),
      m.length ≤ TELEGRAM_MAX_MSG_LEN + 1)) :=
  ⟨by decide, by decide,
    splitter_cap "h" [()] (fun _ => "x") (by decide) (by decide)⟩

/-! ## Chat migration (claim C2) -/

/-- C2: the code violates the claim. Starting from the consistent store
`exDbMig` (chat 1 → feed "a", chat 2 → feed "bb"), `update_subscriber(1, 2)`
overwrites chat 2's own subscription set with chat 1's instead of merging:
in the resulting state feed "bb" still lists chat 2 as a subscriber while
chat 2's index entry is `{1}`, so the dual-index invariant I2 is broken. -/
theorem update_subscriber_breaks_dual_index :
    exDbMig.update_subscriber 1 2 = some exDbMigAfter ∧
    ¬ DualIndex exDbMigAfter := by
  constructor
  · simp only [DatabaseInner.update_subscriber]
    rw [show exDbMig.subscribers.lookup 1 = some ({1} : Finset Nat) from
      by decide]
    simp only []
    rw [Finset.sort_singleton]
    rfl
  · intro h
    obtain ⟨fs, hfs, hmem⟩ := (h 2 2).mpr ⟨feedB, by decide, by decide⟩
    rw [show exDbMigAfter.subscribers.lookup 2 = some ({1} : Finset Nat) from
      by decide] at hfs
    cases hfs
    exact absurd hmem (by decide)

/-! ## Snapshot round-trip (claim C7) -/

/-- Lookup after giving every subscriber of `subs` the feed id `feed_id`:
listed subscribers gain `feed_id` on top of their previous set (created on
demand), everybody else is untouched. -/
lemma open_add_lookup (feed_id : Nat) (subs : List Int) (s : Int) :
    ∀ index : AList fun _ : Int => Finset Nat,
      (open_add_feed_subscribers feed_id subs index).lookup s
        = if s ∈ subs
          then some (insert feed_id ((index.lookup s).getD ∅))
          else index.lookup s := by
  induction subs with
  | nil => intro index; simp [open_add_feed_subscribers]
  | cons a rest ih =>
      intro index
      have hstep : open_add_feed_subscribers feed_id (a :: rest) index
          = open_add_feed_subscribers feed_id rest
              (index.insert a (insert feed_id ((index.lookup a).getD ∅))) :=
        rfl
      rw [hstep, ih]
      by_cases hs : s = a
      · subst hs
        by_cases hmem : s ∈ rest
        · rw [if_pos hmem, AList.lookup_insert,
            if_pos (List.mem_cons_self s rest)]
          simp [Finset.insert_idem]
        · rw [if_neg hmem, AList.lookup_insert,
            if_pos (List.mem_cons_self s rest)]
      · rw [AList.lookup_insert_ne hs]
        simp [List.mem_cons, hs]

/-- Unfolding `collected_feed_ids` one feed at a time. -/
lemma collected_feed_ids_cons (hash : String → Nat) (f : Feed)
    (rest : List Feed) (s : Int) :
    collected_feed_ids hash (f :: rest) s
      = if s ∈ f.subscribers
        then insert (hash f.link) (collected_feed_ids hash rest s)
        else collected_feed_ids hash rest s :=
  rfl

/-- When no feed of `l` lists `s`, nothing is collected for `s`. -/
lemma collected_feed_ids_eq_empty (hash : String → Nat) (s : Int) :
    ∀ l : List Feed, (∀ f ∈ l, s ∉ f.subscribers) →
      collected_feed_ids hash l s = ∅
  | [], _ => rfl
  | f :: rest, h => by
      rw [collected_feed_ids_cons, if_neg (h f (List.mem_cons_self f rest)),
        collected_feed_ids_eq_empty hash s rest
          (fun g hg => h g (List.mem_cons_of_mem f hg))]

/-- Membership in the collected id set. -/
lemma mem_collected_feed_ids (hash : String → Nat) (s : Int) (fid : Nat) :
    ∀ l : List Feed,
      (fid ∈ collected_feed_ids hash l s
        ↔ ∃ f ∈ l, s ∈ f.subscribers ∧ hash f.link = fid)
  | [] => by simp [collected_feed_ids]
  | f :: rest => by
      rw [collected_feed_ids_cons]
      by_cases hs : s ∈ f.subscribers
      · rw [if_pos hs, Finset.mem_insert, mem_collected_feed_ids hash s fid rest]
        constructor
        · rintro (h | ⟨g, hg, hgs, hgl⟩)
          · exact ⟨f, List.mem_cons_self f rest, hs, h.symm⟩
          · exact ⟨g, List.mem_cons_of_mem f hg, hgs, hgl⟩
        · rintro ⟨g, hg, hgs, hgl⟩
          rcases List.mem_cons.mp hg with rfl | hg'
          · exact Or.inl hgl.symm
          · exact Or.inr ⟨g, hg', hgs, hgl⟩
      · rw [if_neg hs, mem_collected_feed_ids hash s fid rest]
        constructor
        · rintro ⟨g, hg, hgs, hgl⟩
          exact ⟨g, List.mem_cons_of_mem f hg, hgs, hgl⟩
        · rintro ⟨g, hg, hgs, hgl⟩
          rcases List.mem_cons.mp hg with rfl | hg'
          · exact absurd hgs hs
          · exact ⟨g, hg', hgs, hgl⟩

/-- The rebuilt feeds map leaves keys alone that no feed of the list hashes
to. -/
lemma rebuild_feeds_lookup_not_mem (hash : String → Nat) :
    ∀ (l : List Feed) (db0 : DatabaseInner) (fid : Nat),
      (∀ f ∈ l, hash f.link ≠ fid) →
      (l.foldl (open_rebuild_step hash) db0).feeds.lookup fid
        = db0.feeds.lookup fid
  | [], _, _, _ => rfl
  | f :: rest, db0, fid, h => by
      rw [List.foldl_cons,
        rebuild_feeds_lookup_not_mem hash rest _ fid
          (fun g hg => h g (List.mem_cons_of_mem f hg))]
      simp only [open_rebuild_step]
      exact AList.lookup_insert_ne
        (fun heq => h f (List.mem_cons_self f rest) heq.symm)

/-- The rebuilt feeds map stores each feed of the list under the hash of its
link (assuming that hash identifies it uniquely within the list). -/
lemma rebuild_feeds_lookup_mem (hash : String → Nat) :
    ∀ (l : List Feed) (db0 : DatabaseInner) (fid : Nat) (f : Feed),
      f ∈ l → hash f.link = fid →
      (∀ g ∈ l, hash g.link = fid → g = f) →
      (l.foldl (open_rebuild_step hash) db0).feeds.lookup fid = some f
  | [], _, _, _, hf, _, _ => absurd hf (List.not_mem_nil _)
  | g :: rest, db0, fid, f, hf, hkey, huniq => by
      rw [List.foldl_cons]
      by_cases hmem : f ∈ rest
      · exact rebuild_feeds_lookup_mem hash rest _ fid f hmem hkey
          (fun g' hg' => huniq g' (List.mem_cons_of_mem g hg'))
      · have hfg : g = f := by
          rcases List.mem_cons.mp hf with h | h
          · exact h.symm
          · exact absurd h hmem
        subst hfg
        rw [rebuild_feeds_lookup_not_mem hash rest _ fid ?_]
        · simp only [open_rebuild_step]
          rw [← hkey]
          exact AList.lookup_insert _
        · intro g' hg' hcon
          exact hmem ((huniq g' (List.mem_cons_of_mem g hg') hcon) ▸ hg')

/-- Lookup in the rebuilt subscriber index: a subscriber listed by some feed
of `l` gets the collected ids on top of whatever the initial index held;
anybody else keeps the initial entry. -/
lemma rebuild_subs_lookup (hash : String → Nat) :
    ∀ (l : List Feed) (db0 : DatabaseInner) (s : Int),
      (l.foldl (open_rebuild_step hash) db0).subscribers.lookup s
        = if ∃ f ∈ l, s ∈ f.subscribers
          then some (collected_feed_ids hash l s ∪
            ((db0.subscribers.lookup s).getD ∅))
          else db0.subscribers.lookup s
  | [], db0, s => by
      rw [if_neg (by rintro ⟨f, hf, -⟩; exact (List.not_mem_nil f) hf)]
      rfl
  | f :: rest, db0, s => by
      rw [List.foldl_cons, rebuild_subs_lookup hash rest _ s]
      have hstep : (open_rebuild_step hash db0 f).subscribers.lookup s
          = if s ∈ f.subscribers
            then some (insert (hash f.link)
              ((db0.subscribers.lookup s).getD ∅))
            else db0.subscribers.lookup s := by
        simp only [open_rebuild_step]
        rw [open_add_lookup]
        by_cases hs : s ∈ f.subscribers
        · rw [if_pos ((Finset.mem_sort _).mpr hs), if_pos hs]
        · rw [if_neg (fun hc => hs ((Finset.mem_sort _).mp hc)), if_neg hs]
      rw [hstep]
      by_cases hs : s ∈ f.subscribers
      · by_cases hrest : ∃ g ∈ rest, s ∈ g.subscribers
        · rw [if_pos hrest, if_pos hs,
            if_pos ⟨f, List.mem_cons_self f rest, hs⟩,
            collected_feed_ids_cons, if_pos hs]
          simp only [Option.getD_some]
          rw [Finset.union_insert, Finset.insert_union]
        · rw [if_neg hrest, if_pos hs,
            if_pos ⟨f, List.mem_cons_self f rest, hs⟩,
            collected_feed_ids_cons, if_pos hs,
            collected_feed_ids_eq_empty hash s rest
              (fun g hg hgs => hrest ⟨g, hg, hgs⟩)]
          rw [Finset.insert_union, Finset.empty_union]
      · by_cases hrest : ∃ g ∈ rest, s ∈ g.subscribers
        · obtain ⟨g, hg, hgs⟩ := hrest
          rw [if_pos ⟨g, hg, hgs⟩, if_neg hs,
            if_pos ⟨g, List.mem_cons_of_mem f hg, hgs⟩,
            collected_feed_ids_cons, if_neg hs]
        · rw [if_neg hrest, if_neg hs, if_neg ?_]
          rintro ⟨g, hg, hgs⟩
          rcases List.mem_cons.mp hg with rfl | hg'
          · exact hs hgs
          · exact hrest ⟨g, hg', hgs⟩

/-- A feed record is part of the snapshot payload exactly when it is stored
under some id. -/
lemma mem_save_iff (db : DatabaseInner) (f : Feed) :
    f ∈ db.save ↔ ∃ fid, db.feeds.lookup fid = some f := by
  simp only [DatabaseInner.save, List.mem_map]
  constructor
  · rintro ⟨e, he, rfl⟩
    refine ⟨e.1, ?_⟩
    have : e.2 ∈ db.feeds.lookup e.1 := AList.mem_lookup_iff.mpr (by
      cases e; exact he)
    exact Option.mem_def.mp this
  · rintro ⟨fid, hlook⟩
    exact ⟨⟨fid, f⟩, AList.mem_lookup_iff.mp (Option.mem_def.mpr hlook), rfl⟩

/-- C7 (amended): serialising the store and rebuilding it reproduces the
same feeds map and the same subscriber index (pointwise, i.e. up to
iteration order), provided the store satisfies I2, stores every feed under
the hash of its link (I5), and has no empty entry in its subscriber index.
I1/I2 alone do not suffice: see the counterexample, where a feed stored
under a key other than `hash(link)` moves during the reload. -/
theorem snapshot_roundtrip (hash : String → Nat) (db : DatabaseInner)
    (hI2 : DualIndex db) (hkeys : KeysAreLinkHashes hash db)
    (hne : IndexEntriesNonempty db) :
    (∀ fid, (open_rebuild hash db.save).feeds.lookup fid
      = db.feeds.lookup fid) ∧
    (∀ s, (open_rebuild hash db.save).subscribers.lookup s
      = db.subscribers.lookup s) := by
  constructor
  · intro fid
    cases hlook : db.feeds.lookup fid with
    | some f =>
        have hf : f ∈ db.save := (mem_save_iff db f).mpr ⟨fid, hlook⟩
        have hkey : hash f.link = fid := (hkeys fid f hlook).symm
        have huniq : ∀ g ∈ db.save, hash g.link = fid → g = f := by
          intro g hg hgl
          obtain ⟨k, hk⟩ := (mem_save_iff db g).mp hg
          have hkk := hkeys k g hk
          rw [hkk, hgl, hlook] at hk
          exact (Option.some.injEq _ _ ▸ hk).symm
        exact rebuild_feeds_lookup_mem hash db.save _ fid f hf hkey huniq
    | none =>
        have hnot : ∀ g ∈ db.save, hash g.link ≠ fid := by
          intro g hg hgl
          obtain ⟨k, hk⟩ := (mem_save_iff db g).mp hg
          have hkk := hkeys k g hk
          rw [hkk, hgl, hlook] at hk
          cases hk
        exact rebuild_feeds_lookup_not_mem hash db.save _ fid hnot
  · intro s
    show (db.save.foldl (open_rebuild_step hash)
      { feeds := ∅, subscribers := ∅ }).subscribers.lookup s
        = db.subscribers.lookup s
    rw [rebuild_subs_lookup]
    by_cases hcond : ∃ f ∈ db.save, s ∈ f.subscribers
    · rw [if_pos hcond]
      obtain ⟨f, hf, hsf⟩ := hcond
      obtain ⟨k, hk⟩ := (mem_save_iff db f).mp hf
      obtain ⟨fs, hfs, -⟩ := (hI2 s k).mpr ⟨f, hk, hsf⟩
      rw [hfs]
      have hbase :
          (({ feeds := ∅, subscribers := ∅ } :
            DatabaseInner).subscribers.lookup s) = none :=
        AList.lookup_empty _
      rw [hbase]
      simp only [Option.getD_none, Finset.union_empty, Option.some.injEq]
      ext fid
      rw [mem_collected_feed_ids]
      constructor
      · rintro ⟨g, hg, hgs, hgl⟩
        obtain ⟨k', hk'⟩ := (mem_save_iff db g).mp hg
        have hkk := hkeys k' g hk'
        rw [hkk, hgl] at hk'
        obtain ⟨fs', hfs', hmemfid⟩ := (hI2 s fid).mpr ⟨g, hk', hgs⟩
        rw [hfs] at hfs'
        cases hfs'
        exact hmemfid
      · intro hfid
        obtain ⟨g, hg, hsg⟩ := (hI2 s fid).mp ⟨fs, hfs, hfid⟩
        exact ⟨g, (mem_save_iff db g).mpr ⟨fid, hg⟩, hsg,
          (hkeys fid g hg).symm⟩
    · rw [if_neg hcond]
      cases hsub : db.subscribers.lookup s with
      | none => exact AList.lookup_empty _
      | some fs =>
          exfalso
          have hnefs := hne s fs hsub
          obtain ⟨fid, hfid⟩ := Finset.nonempty_iff_ne_empty.mpr hnefs
          obtain ⟨g, hg, hsg⟩ := (hI2 s fid).mp ⟨fs, hsub, hfid⟩
          exact hcond ⟨g, (mem_save_iff db g).mpr ⟨fid, hg⟩, hsg⟩

/-- `exDb` stores its feed under the hash of its link. -/
lemma exDb_keys (w : List Nat) (e : Nat) :
    KeysAreLinkHashes String.length (exDb w e) := by
  intro fid f hf
  simp only [exDb] at hf
  by_cases h2 : fid = 2
  · subst h2
    rw [AList.lookup_insert] at hf
    cases hf
    rfl
  · rw [AList.lookup_insert_ne h2, AList.lookup_empty] at hf
    cases hf

/-- `exDb`'s subscriber index has no empty entry. -/
lemma exDb_index_nonempty (w : List Nat) (e : Nat) :
    IndexEntriesNonempty (exDb w e) := by
  intro s fs hs
  simp only [exDb] at hs
  by_cases h7 : s = 7
  · subst h7
    rw [AList.lookup_insert] at hs
    cases hs
    decide
  · rw [AList.lookup_insert_ne h7, AList.lookup_empty] at hs
    cases hs

/-- C7 as stated is false: `mismatchDb` satisfies I1 and I2 but stores its
feed (link "ab", which hashes to 2 under `String.length`) under key 0;
reloading the snapshot rehashes the link, so the reloaded feeds map differs
from the original at key 0. -/
theorem snapshot_roundtrip_counterexample :
    FeedsNonempty mismatchDb ∧ DualIndex mismatchDb ∧
    ¬ ((open_rebuild String.length mismatchDb.save).feeds.lookup 0
        = mismatchDb.feeds.lookup 0) := by
  refine ⟨mismatchDb_feeds_nonempty, mismatchDb_dual_index, ?_⟩
  rw [show mismatchDb.save = [exFeed [] 0] from by decide]
  decide

/-- Witness for C7 (amended) at a concrete consistent store. -/
theorem snapshot_roundtrip_witness :
    DualIndex (exDb [1] 0) ∧ KeysAreLinkHashes String.length (exDb [1] 0) ∧
    IndexEntriesNonempty (exDb [1] 0) ∧
    ((open_rebuild String.length (exDb [1] 0).save).feeds.lookup 2
      = (exDb [1] 0).feeds.lookup 2) ∧
    ((open_rebuild String.length (exDb [1] 0).save).subscribers.lookup 7
      = (exDb [1] 0).subscribers.lookup 7) :=
  ⟨exDb_dual_index [1] 0, exDb_keys [1] 0, exDb_index_nonempty [1] 0,
    (snapshot_roundtrip String.length (exDb [1] 0) (exDb_dual_index [1] 0)
      (exDb_keys [1] 0) (exDb_index_nonempty [1] 0)).1 2,
    (snapshot_roundtrip String.length (exDb [1] 0) (exDb_dual_index [1] 0)
      (exDb_keys [1] 0) (exDb_index_nonempty [1] 0)).2 7⟩

/-- Witness for C5 (amended): window `[]`, poll₁ = `[itemA]` (all its
fingerprints land in the stored window `[1]`), poll₂ = `[itemA, itemB]` —
only `itemB` can be returned again. -/
theorem no_duplicate_delivery_across_polls_witness :
    (((exDb [] 0).update String.length "ab" [itemA]).2).feeds.lookup
        (String.length "ab") = some (exFeed [1] 0) ∧
    (∀ it ∈ [itemA],
      gen_item_hash String.length it ∈ (exFeed [1] 0).hash_list) ∧
    ((∀ it ∈ ((((exDb [] 0).update String.length "ab" [itemA]).2).update
        String.length "ab" [itemA, itemB]).1,
      gen_item_hash String.length it
        ∉ [itemA].map (gen_item_hash String.length)) ∧
    ((((exDb [] 0).update String.length "ab" [itemA]).2).update String.length
        "ab" [itemA, itemB]).1.length
      ≤ ([itemA, itemB].filter fun it =>
          decide (gen_item_hash String.length it
            ∉ [itemA].map (gen_item_hash String.length))).length) :=
  ⟨by decide, by decide,
    no_duplicate_delivery_across_polls String.length (exDb [] 0) "ab"
      [itemA] [itemA, itemB] (exFeed [1] 0) (by decide) (by decide)⟩

end Rssbot
